import Mathlib

/-!
Shallow embedding of the qwery-sdk-rust client library (src/client.rs,
src/types.rs, src/error.rs) together with the external library functions the
source calls and whose behaviour decides the claims:

* `base64::engine::general_purpose::STANDARD` (`BASE64.encode` / `BASE64.decode`
  in `client.rs`): standard alphabet, canonical `=` padding required on decode,
  trailing bits must be zero.
* `bincode::serialize` / `bincode::deserialize` (bincode 1.x): fixed layout for
  the `solana_sdk` `Transaction` type; `bincode::deserialize` on a byte slice
  allows and ignores trailing bytes (it is `DefaultOptions ... .allow_trailing_bytes()`).
* `solana_sdk::transaction::Transaction` and its bincode/serde wire layout
  (short_vec compact-u16 length prefixes, raw fixed-width byte arrays), and
  `Transaction::partial_sign`, which unwraps/expects internally and therefore
  panics (rather than returning an error) when the keypair's pubkey has no
  signer slot or the account index is invalid.

Bytes are modelled as `Nat` (always below 256 where produced by the embedded
code); machine integers do not overflow anywhere in the modelled paths.
-/

namespace Qwery

/-! ## Solana short_vec compact-u16 length encoding

Mirrors `solana_sdk::short_vec::ShortU16`'s serde with bincode: 1-3 bytes of
7-bit groups, little-endian, continuation bit 0x80.  The deserializer rejects
a zero byte after the first (alias), a third byte with the continuation bit,
and values that do not fit in a u16. -/

/-- Compact-u16 encoding of a length `n < 65536`, as `ShortU16`'s serde
serializer emits it with bincode. -/
def shortU16Encode (n : Nat) : List Nat :=
  if n < 128 then [n]
  else if n < 16384 then [n % 128 + 128, n / 128]
  else [n % 128 + 128, n / 128 % 128 + 128, n / 16384]

/-- Compact-u16 decoder, mirroring `ShortU16`'s serde visitor: at most three
bytes, alias (zero continuation group) and overflow rejected; returns the
value and the unconsumed rest. -/
def shortU16Decode : List Nat → Option (Nat × List Nat)
  | [] => none
  | b1 :: rest =>
    if b1 < 128 then some (b1, rest)
    else
      match rest with
      | [] => none
      | b2 :: rest2 =>
        if b2 = 0 then none
        else if b2 < 128 then some (b1 % 128 + b2 * 128, rest2)
        else
          match rest2 with
          | [] => none
          | b3 :: rest3 =>
            if b3 = 0 then none
            else if 128 ≤ b3 then none
            else if b1 % 128 + b2 % 128 * 128 + b3 * 16384 < 65536 then
              some (b1 % 128 + b2 % 128 * 128 + b3 * 16384, rest3)
            else none

theorem shortU16Decode_encode (n : Nat) (h : n < 65536) (rest : List Nat) :
    shortU16Decode (shortU16Encode n ++ rest) = some (n, rest) := by
  by_cases h1 : n < 128
  · simp [shortU16Encode, shortU16Decode, h1]
  · by_cases h2 : n < 16384
    · have e2 : ¬ (n % 128 + 128 < 128) := by omega
      have e3 : ¬ (n / 128 = 0) := by omega
      have e4 : n / 128 < 128 := by omega
      simp only [shortU16Encode, if_neg h1, if_pos h2, List.cons_append, List.nil_append,
        shortU16Decode, if_neg e2, if_neg e3, if_pos e4]
      congr 1
      congr 1
      omega
    · have e2 : ¬ (n % 128 + 128 < 128) := by omega
      have e3 : ¬ (n / 128 % 128 + 128 = 0) := by omega
      have e4 : ¬ (n / 128 % 128 + 128 < 128) := by omega
      have e5 : ¬ (n / 16384 = 0) := by omega
      have e6 : ¬ (128 ≤ n / 16384) := by omega
      have e7 : (n % 128 + 128) % 128 + (n / 128 % 128 + 128) % 128 * 128 + n / 16384 * 16384
          = n := by omega
      simp only [shortU16Encode, if_neg h1, if_neg h2, List.cons_append, List.nil_append,
        shortU16Decode, if_neg e2, if_neg e3, if_neg e4, if_neg e5, if_neg e6, e7,
        if_pos h]

theorem shortU16Encode_bytes_lt (n : Nat) (h : n < 65536) :
    ∀ b ∈ shortU16Encode n, b < 256 := by
  intro b hb
  unfold shortU16Encode at hb
  by_cases h1 : n < 128
  · simp [h1] at hb; omega
  · by_cases h2 : n < 16384
    · simp [h1, h2] at hb
      rcases hb with hb | hb <;> omega
    · simp [h1, h2] at hb
      rcases hb with hb | hb | hb <;> omega

/-! ## Base64, standard alphabet with canonical padding

Mirrors `base64::engine::general_purpose::STANDARD`: the standard alphabet,
`=`-padded output on encode; on decode the length must be a multiple of four,
padding must be canonical and final, and the unused low bits of the final
symbol must be zero (`decode_allow_trailing_bits` is false in this engine). -/

/-- The standard base64 alphabet. -/
def b64Chars : List Char :=
  "ABCDEFGHIJKLMNOPQRSTUVWXYZabcdefghijklmnopqrstuvwxyz0123456789+/".data

/-- Symbol for a 6-bit value. -/
def encChar (v : Nat) : Char := b64Chars.getD v 'A'

/-- Value of an alphabet symbol; `none` for characters outside the alphabet
(including the padding character). -/
def decChar (c : Char) : Option Nat := b64Chars.findIdx? (fun x => x == c)

theorem decChar_encChar_fin : ∀ v : Fin 64, decChar (encChar v.1) = some v.1 := by decide

theorem encChar_ne_pad_fin : ∀ v : Fin 64, encChar v.1 ≠ '=' := by decide

theorem decChar_encChar {v : Nat} (h : v < 64) : decChar (encChar v) = some v :=
  decChar_encChar_fin ⟨v, h⟩

theorem encChar_ne_pad {v : Nat} (h : v < 64) : encChar v ≠ '=' :=
  encChar_ne_pad_fin ⟨v, h⟩

/-- Base64 encoding of a byte list, three bytes to four symbols, with `=`
padding on the final one- or two-byte group. -/
def b64EncodeChunks : List Nat → List Char
  | b1 :: b2 :: b3 :: rest =>
    encChar (b1 / 4) :: encChar (b1 % 4 * 16 + b2 / 16) :: encChar (b2 % 16 * 4 + b3 / 64)
      :: encChar (b3 % 64) :: b64EncodeChunks rest
  | [b1, b2] =>
    [encChar (b1 / 4), encChar (b1 % 4 * 16 + b2 / 16), encChar (b2 % 16 * 4), '=']
  | [b1] => [encChar (b1 / 4), encChar (b1 % 4 * 16), '=', '=']
  | [] => []

/-- Base64 decoding: strict, canonical-padding, zero-trailing-bits, as the
`STANDARD` engine's decode behaves.  `none` models `base64::DecodeError`. -/
def b64DecodeChunks : List Char → Option (List Nat)
  | [] => some []
  | c1 :: c2 :: c3 :: c4 :: rest =>
    match decChar c1, decChar c2 with
    | some v1, some v2 =>
      if c3 = '=' then
        if c4 = '=' then
          if rest = [] then
            if v2 % 16 = 0 then some [v1 * 4 + v2 / 16] else none
          else none
        else none
      else
        match decChar c3 with
        | some v3 =>
          if c4 = '=' then
            if rest = [] then
              if v3 % 4 = 0 then some [v1 * 4 + v2 / 16, v2 % 16 * 16 + v3 / 4] else none
            else none
          else
            match decChar c4 with
            | some v4 =>
              match b64DecodeChunks rest with
              | some bs =>
                some ((v1 * 4 + v2 / 16) :: (v2 % 16 * 16 + v3 / 4) :: (v3 % 4 * 64 + v4) :: bs)
              | none => none
            | none => none
        | none => none
    | _, _ => none
  | _ => none

/-- The `String`-level encode as `BASE64.encode` delivers it. -/
def b64Encode (bs : List Nat) : String := ⟨b64EncodeChunks bs⟩

/-- The `String`-level decode as `BASE64.decode` performs it. -/
def b64Decode (s : String) : Option (List Nat) := b64DecodeChunks s.data

theorem b64DecodeChunks_encodeChunks : ∀ bs : List Nat, (∀ b ∈ bs, b < 256) →
    b64DecodeChunks (b64EncodeChunks bs) = some bs := by
  intro bs
  induction bs using b64EncodeChunks.induct with
  | case1 b1 b2 b3 rest ih =>
    intro h
    have hb1 : b1 < 256 := h b1 (by simp)
    have hb2 : b2 < 256 := h b2 (by simp)
    have hb3 : b3 < 256 := h b3 (by simp)
    have hv1 : b1 / 4 < 64 := by omega
    have hv2 : b1 % 4 * 16 + b2 / 16 < 64 := by omega
    have hv3 : b2 % 16 * 4 + b3 / 64 < 64 := by omega
    have hv4 : b3 % 64 < 64 := by omega
    have ih' := ih (fun b hb => h b (by simp [hb]))
    simp only [b64EncodeChunks, b64DecodeChunks, decChar_encChar hv1, decChar_encChar hv2,
      decChar_encChar hv3, decChar_encChar hv4, if_neg (encChar_ne_pad hv3),
      if_neg (encChar_ne_pad hv4), ih']
    congr 1
    have e1 : b1 / 4 * 4 + (b1 % 4 * 16 + b2 / 16) / 16 = b1 := by omega
    have e2 : (b1 % 4 * 16 + b2 / 16) % 16 * 16 + (b2 % 16 * 4 + b3 / 64) / 4 = b2 := by omega
    have e3 : (b2 % 16 * 4 + b3 / 64) % 4 * 64 + b3 % 64 = b3 := by omega
    rw [e1, e2, e3]
  | case2 b1 b2 =>
    intro h
    have hb1 : b1 < 256 := h b1 (by simp)
    have hb2 : b2 < 256 := h b2 (by simp)
    have hv1 : b1 / 4 < 64 := by omega
    have hv2 : b1 % 4 * 16 + b2 / 16 < 64 := by omega
    have hv3 : b2 % 16 * 4 < 64 := by omega
    simp only [b64EncodeChunks, b64DecodeChunks, decChar_encChar hv1, decChar_encChar hv2,
      decChar_encChar hv3, if_neg (encChar_ne_pad hv3)]
    have e0 : b2 % 16 * 4 % 4 = 0 := by omega
    have e1 : b1 / 4 * 4 + (b1 % 4 * 16 + b2 / 16) / 16 = b1 := by omega
    have e2 : (b1 % 4 * 16 + b2 / 16) % 16 * 16 + b2 % 16 * 4 / 4 = b2 := by omega
    simp [e0, e1, e2]
    omega
  | case3 b1 =>
    intro h
    have hb1 : b1 < 256 := h b1 (by simp)
    have hv1 : b1 / 4 < 64 := by omega
    have hv2 : b1 % 4 * 16 < 64 := by omega
    simp only [b64EncodeChunks, b64DecodeChunks, decChar_encChar hv1, decChar_encChar hv2]
    have e0 : b1 % 4 * 16 % 16 = 0 := by omega
    have e1 : b1 / 4 * 4 + b1 % 4 * 16 / 16 = b1 := by omega
    simp [e0, e1]
    omega
  | case4 =>
    intro _
    rfl

theorem b64Decode_b64Encode (bs : List Nat) (h : ∀ b ∈ bs, b < 256) :
    b64Decode (b64Encode bs) = some bs :=
  b64DecodeChunks_encodeChunks bs h

/-! ## The solana_sdk Transaction data model and its bincode wire layout

`solana_sdk::transaction::Transaction` as `bincode::serialize` /
`bincode::deserialize` lay it out: a short_vec of 64-byte signatures, then the
message (three header bytes, a short_vec of 32-byte account keys, the 32-byte
recent blockhash, and a short_vec of compiled instructions, each a program id
byte plus short_vec account-index bytes plus short_vec data bytes). -/

/-- A 32-byte public key (`solana_sdk::pubkey::Pubkey`). -/
abbrev Pubkey := List Nat

/-- A 32-byte hash (`solana_sdk::hash::Hash`). -/
abbrev SolHash := List Nat

/-- A 64-byte ed25519 signature (`solana_sdk::signature::Signature`). -/
abbrev SolSignature := List Nat

structure MessageHeader where
  num_required_signatures : Nat
  num_readonly_signed_accounts : Nat
  num_readonly_unsigned_accounts : Nat
deriving DecidableEq

structure CompiledInstruction where
  program_id_index : Nat
  accounts : List Nat
  data : List Nat
deriving DecidableEq

structure Message where
  header : MessageHeader
  account_keys : List Pubkey
  recent_blockhash : SolHash
  instructions : List CompiledInstruction
deriving DecidableEq

structure Transaction where
  signatures : List SolSignature
  message : Message
deriving DecidableEq

/-- Bincode bytes of one compiled instruction. -/
def serializeInstruction (i : CompiledInstruction) : List Nat :=
  i.program_id_index :: (shortU16Encode i.accounts.length ++ i.accounts
    ++ shortU16Encode i.data.length ++ i.data)

/-- Bincode bytes of the message: exactly `Transaction::message_data` in the
source, the byte string that gets signed. -/
def serializeMessage (m : Message) : List Nat :=
  m.header.num_required_signatures :: m.header.num_readonly_signed_accounts ::
    m.header.num_readonly_unsigned_accounts ::
    (shortU16Encode m.account_keys.length ++ m.account_keys.flatten
      ++ m.recent_blockhash
      ++ shortU16Encode m.instructions.length
      ++ (m.instructions.map serializeInstruction).flatten)

/-- `bincode::serialize` of a `Transaction` (total on this type). -/
def bincodeSerializeTransaction (tx : Transaction) : List Nat :=
  shortU16Encode tx.signatures.length ++ tx.signatures.flatten
    ++ serializeMessage tx.message

/-- Consume exactly `k` bytes. -/
def parseBytes (k : Nat) (bs : List Nat) : Option (List Nat × List Nat) :=
  if k ≤ bs.length then some (bs.take k, bs.drop k) else none

/-- Consume one byte. -/
def parseByte : List Nat → Option (Nat × List Nat)
  | [] => none
  | b :: rest => some (b, rest)

/-- Parse `n` consecutive items with `p`. -/
def parseCount (p : List Nat → Option (α × List Nat)) :
    Nat → List Nat → Option (List α × List Nat)
  | 0, bs => some ([], bs)
  | Nat.succ n, bs =>
    match p bs with
    | none => none
    | some (a, bs1) =>
      match parseCount p n bs1 with
      | none => none
      | some (as, bs2) => some (a :: as, bs2)

/-- Parse a short_vec: compact-u16 length then that many items. -/
def parseShortVec (p : List Nat → Option (α × List Nat)) (bs : List Nat) :
    Option (List α × List Nat) :=
  match shortU16Decode bs with
  | none => none
  | some (n, bs1) => parseCount p n bs1

def parseInstruction (bs : List Nat) : Option (CompiledInstruction × List Nat) :=
  match parseByte bs with
  | none => none
  | some (pid, bs1) =>
    match parseShortVec parseByte bs1 with
    | none => none
    | some (accounts, bs2) =>
      match parseShortVec parseByte bs2 with
      | none => none
      | some (data, bs3) => some ({ program_id_index := pid, accounts := accounts, data := data }, bs3)

def parseMessage (bs : List Nat) : Option (Message × List Nat) :=
  match parseByte bs with
  | none => none
  | some (h1, bs1) =>
    match parseByte bs1 with
    | none => none
    | some (h2, bs2) =>
      match parseByte bs2 with
      | none => none
      | some (h3, bs3) =>
        match parseShortVec (parseBytes 32) bs3 with
        | none => none
        | some (keys, bs4) =>
          match parseBytes 32 bs4 with
          | none => none
          | some (blockhash, bs5) =>
            match parseShortVec parseInstruction bs5 with
            | none => none
            | some (instrs, bs6) =>
              some ({ header := ⟨h1, h2, h3⟩, account_keys := keys,
                      recent_blockhash := blockhash, instructions := instrs }, bs6)

def parseTransaction (bs : List Nat) : Option (Transaction × List Nat) :=
  match parseShortVec (parseBytes 64) bs with
  | none => none
  | some (sigs, bs1) =>
    match parseMessage bs1 with
    | none => none
    | some (m, bs2) => some ({ signatures := sigs, message := m }, bs2)

/-- `bincode::deserialize::<Transaction>` on a byte slice.  Bincode 1.x's
`deserialize` is configured with `allow_trailing_bytes`, so any bytes left
after the transaction are accepted and ignored. -/
def bincodeDeserializeTransaction (bs : List Nat) : Option Transaction :=
  match parseTransaction bs with
  | none => none
  | some (tx, _) => some tx

/-! ### Well-formedness and the serializer/parser round trip -/

/-- Byte lists of a fixed width. -/
def bytesWF (k : Nat) (l : List Nat) : Prop := l.length = k ∧ ∀ b ∈ l, b < 256

def instructionWF (i : CompiledInstruction) : Prop :=
  i.program_id_index < 256 ∧ i.accounts.length < 65536 ∧ (∀ b ∈ i.accounts, b < 256)
    ∧ i.data.length < 65536 ∧ (∀ b ∈ i.data, b < 256)

def messageWF (m : Message) : Prop :=
  m.header.num_required_signatures < 256 ∧ m.header.num_readonly_signed_accounts < 256
    ∧ m.header.num_readonly_unsigned_accounts < 256
    ∧ m.account_keys.length < 65536 ∧ (∀ k ∈ m.account_keys, bytesWF 32 k)
    ∧ bytesWF 32 m.recent_blockhash
    ∧ m.instructions.length < 65536 ∧ (∀ i ∈ m.instructions, instructionWF i)

/-- A transaction every machine-width side condition of whose serialization
holds: the well-formed envelopes of the spec. -/
def transactionWF (tx : Transaction) : Prop :=
  tx.signatures.length < 65536 ∧ (∀ s ∈ tx.signatures, bytesWF 64 s)
    ∧ messageWF tx.message

instance : DecidablePred instructionWF := fun i => by
  unfold instructionWF; infer_instance

instance : DecidablePred messageWF := fun m => by
  unfold messageWF bytesWF; infer_instance

instance : DecidablePred transactionWF := fun tx => by
  unfold transactionWF messageWF bytesWF; infer_instance

theorem parseBytes_append {k : Nat} {l : List Nat} (h : l.length = k) (rest : List Nat) :
    parseBytes k (l ++ rest) = some (l, rest) := by
  subst h
  simp [parseBytes, List.take_left, List.drop_left]

theorem parseCount_append (p : List Nat → Option (α × List Nat)) (ser : α → List Nat)
    (xs : List α) (h : ∀ x ∈ xs, ∀ r, p (ser x ++ r) = some (x, r)) (rest : List Nat) :
    parseCount p xs.length ((xs.map ser).flatten ++ rest) = some (xs, rest) := by
  induction xs with
  | nil => simp [parseCount]
  | cons x xs ih =>
    have hx := h x (by simp)
    have ih' := ih (fun y hy r => h y (by simp [hy]) r)
    simp only [List.map_cons, List.flatten_cons, List.length_cons, List.append_assoc,
      parseCount, hx, ih']

theorem parseShortVec_append (p : List Nat → Option (α × List Nat)) (ser : α → List Nat)
    (xs : List α) (hlen : xs.length < 65536)
    (h : ∀ x ∈ xs, ∀ r, p (ser x ++ r) = some (x, r)) (rest : List Nat) :
    parseShortVec p ((shortU16Encode xs.length ++ (xs.map ser).flatten) ++ rest)
      = some (xs, rest) := by
  simp only [parseShortVec, List.append_assoc, shortU16Decode_encode _ hlen,
    parseCount_append p ser xs h rest]

theorem parseInstruction_append (i : CompiledInstruction) (hwf : instructionWF i)
    (rest : List Nat) :
    parseInstruction (serializeInstruction i ++ rest) = some (i, rest) := by
  obtain ⟨h1, h2, h3, h4, h5⟩ := hwf
  have hacc : ∀ r, parseShortVec parseByte ((shortU16Encode i.accounts.length
      ++ (i.accounts.map (fun b => [b])).flatten) ++ r) = some (i.accounts, r) :=
    fun r => parseShortVec_append parseByte (fun b => [b]) i.accounts h2
      (fun x _ r => by simp [parseByte]) r
  have hdat : ∀ r, parseShortVec parseByte ((shortU16Encode i.data.length
      ++ (i.data.map (fun b => [b])).flatten) ++ r) = some (i.data, r) :=
    fun r => parseShortVec_append parseByte (fun b => [b]) i.data h4
      (fun x _ r => by simp [parseByte]) r
  have hflat : ∀ l : List Nat, (l.map (fun b => [b])).flatten = l := by
    intro l; induction l with
    | nil => rfl
    | cons x xs ih => simp [ih]
  simp only [hflat] at hacc hdat
  have hacc2 : ∀ r, parseShortVec parseByte
      (shortU16Encode i.accounts.length ++ (i.accounts ++ r)) = some (i.accounts, r) := by
    intro r; rw [← List.append_assoc]; exact hacc r
  have hdat2 : ∀ r, parseShortVec parseByte
      (shortU16Encode i.data.length ++ (i.data ++ r)) = some (i.data, r) := by
    intro r; rw [← List.append_assoc]; exact hdat r
  simp only [serializeInstruction, List.cons_append, List.append_assoc, parseInstruction,
    parseByte, hacc2, hdat2]

theorem parseMessage_append (m : Message) (hwf : messageWF m) (rest : List Nat) :
    parseMessage (serializeMessage m ++ rest) = some (m, rest) := by
  obtain ⟨h1, h2, h3, h4, h5, h6, h7, h8⟩ := hwf
  have hkeys : ∀ r, parseShortVec (parseBytes 32) ((shortU16Encode m.account_keys.length
      ++ (m.account_keys.map id).flatten) ++ r) = some (m.account_keys, r) :=
    fun r => parseShortVec_append (parseBytes 32) id m.account_keys h4
      (fun k hk r => parseBytes_append (h5 k hk).1 r) r
  have hinstrs : ∀ r, parseShortVec parseInstruction ((shortU16Encode m.instructions.length
      ++ (m.instructions.map serializeInstruction).flatten) ++ r) = some (m.instructions, r) :=
    fun r => parseShortVec_append parseInstruction serializeInstruction m.instructions h7
      (fun i hi r => parseInstruction_append i (h8 i hi) r) r
  simp only [List.map_id] at hkeys
  have hkeys2 : ∀ r, parseShortVec (parseBytes 32)
      (shortU16Encode m.account_keys.length ++ (m.account_keys.flatten ++ r))
      = some (m.account_keys, r) := by
    intro r; rw [← List.append_assoc]; exact hkeys r
  have hinstrs2 : ∀ r, parseShortVec parseInstruction
      (shortU16Encode m.instructions.length
        ++ ((m.instructions.map serializeInstruction).flatten ++ r))
      = some (m.instructions, r) := by
    intro r; rw [← List.append_assoc]; exact hinstrs r
  have hbh : ∀ r, parseBytes 32 (m.recent_blockhash ++ r) = some (m.recent_blockhash, r) :=
    fun r => parseBytes_append h6.1 r
  simp only [serializeMessage, List.cons_append, List.append_assoc, parseMessage, parseByte,
    hkeys2, hbh, hinstrs2]

theorem parseTransaction_append (tx : Transaction) (hwf : transactionWF tx)
    (rest : List Nat) :
    parseTransaction (bincodeSerializeTransaction tx ++ rest) = some (tx, rest) := by
  obtain ⟨h1, h2, h3⟩ := hwf
  have hsigs : ∀ r, parseShortVec (parseBytes 64) ((shortU16Encode tx.signatures.length
      ++ (tx.signatures.map id).flatten) ++ r) = some (tx.signatures, r) :=
    fun r => parseShortVec_append (parseBytes 64) id tx.signatures h1
      (fun s hs r => parseBytes_append (h2 s hs).1 r) r
  simp only [List.map_id] at hsigs
  have hsigs2 : ∀ r, parseShortVec (parseBytes 64)
      (shortU16Encode tx.signatures.length ++ (tx.signatures.flatten ++ r))
      = some (tx.signatures, r) := by
    intro r; rw [← List.append_assoc]; exact hsigs r
  have hmsg : ∀ r, parseMessage (serializeMessage tx.message ++ r) = some (tx.message, r) :=
    fun r => parseMessage_append tx.message h3 r
  simp only [bincodeSerializeTransaction, List.append_assoc, parseTransaction, hsigs2, hmsg]

theorem bincodeDeserialize_serialize (tx : Transaction) (hwf : transactionWF tx) :
    bincodeDeserializeTransaction (bincodeSerializeTransaction tx) = some tx := by
  have := parseTransaction_append tx hwf []
  simp only [List.append_nil] at this
  simp [bincodeDeserializeTransaction, this]

/-- Trailing bytes are ignored by `bincode::deserialize`. -/
theorem bincodeDeserialize_serialize_trailing (tx : Transaction) (hwf : transactionWF tx)
    (junk : List Nat) :
    bincodeDeserializeTransaction (bincodeSerializeTransaction tx ++ junk) = some tx := by
  simp [bincodeDeserializeTransaction, parseTransaction_append tx hwf junk]

theorem serializeInstruction_bytes_lt (i : CompiledInstruction) (hwf : instructionWF i) :
    ∀ b ∈ serializeInstruction i, b < 256 := by
  obtain ⟨h1, h2, h3, h4, h5⟩ := hwf
  intro b hb
  simp only [serializeInstruction, List.mem_cons, List.mem_append] at hb
  rcases hb with rfl | ⟨⟨hb | hb⟩ | hb⟩ | hb
  · exact h1
  · exact shortU16Encode_bytes_lt _ h2 b hb
  · exact h3 b hb
  · exact shortU16Encode_bytes_lt _ h4 b hb
  · exact h5 b hb

theorem serializeMessage_bytes_lt (m : Message) (hwf : messageWF m) :
    ∀ b ∈ serializeMessage m, b < 256 := by
  obtain ⟨h1, h2, h3, h4, h5, h6, h7, h8⟩ := hwf
  intro b hb
  simp only [serializeMessage, List.mem_cons, List.mem_append] at hb
  rcases hb with rfl | rfl | rfl | ⟨⟨⟨hb | hb⟩ | hb⟩ | hb⟩ | hb
  · exact h1
  · exact h2
  · exact h3
  · exact shortU16Encode_bytes_lt _ h4 b hb
  · obtain ⟨k, hk, hbk⟩ := List.mem_flatten.mp hb
    exact (h5 k hk).2 b hbk
  · exact h6.2 b hb
  · exact shortU16Encode_bytes_lt _ h7 b hb
  · obtain ⟨l, hl, hbl⟩ := List.mem_flatten.mp hb
    obtain ⟨i, hi, rfl⟩ := List.mem_map.mp hl
    exact serializeInstruction_bytes_lt i (h8 i hi) b hbl

theorem bincodeSerializeTransaction_bytes_lt (tx : Transaction) (hwf : transactionWF tx) :
    ∀ b ∈ bincodeSerializeTransaction tx, b < 256 := by
  obtain ⟨h1, h2, h3⟩ := hwf
  intro b hb
  simp only [bincodeSerializeTransaction, List.mem_append] at hb
  rcases hb with ⟨hb | hb⟩ | hb
  · exact shortU16Encode_bytes_lt _ h1 b hb
  · obtain ⟨l, hl, hbl⟩ := List.mem_flatten.mp hb
    exact (h2 l hl).2 b hbl
  · exact serializeMessage_bytes_lt tx.message h3 b hb

/-! ## The transaction-envelope codec used by sign_and_settle

Decode is `BASE64.decode` then `bincode::deserialize::<Transaction>`; encode is
`bincode::serialize` then `BASE64.encode` (client.rs lines 142-154). -/

/-- Decode side of the codec: base64-decode, then bincode-deserialize. -/
def envelopeDecode (text : String) : Option Transaction :=
  match b64Decode text with
  | none => none
  | some bs => bincodeDeserializeTransaction bs

/-- Encode side of the codec: bincode-serialize, then base64-encode. -/
def envelopeEncode (tx : Transaction) : String :=
  b64Encode (bincodeSerializeTransaction tx)

theorem envelopeDecode_encode (tx : Transaction) (hwf : transactionWF tx) :
    envelopeDecode (envelopeEncode tx) = some tx := by
  unfold envelopeDecode envelopeEncode
  rw [b64Decode_b64Encode _ (bincodeSerializeTransaction_bytes_lt tx hwf)]
  exact bincodeDeserialize_serialize tx hwf

/-! ## The signer: Transaction::partial_sign

`sign_and_settle` calls `transaction.partial_sign(&[keypair],
transaction.message.recent_blockhash)`.  In solana_sdk, `partial_sign` is
`try_partial_sign(..).unwrap()`-style: any failure (keypair-pubkey mismatch,
invalid account index) PANICS instead of returning an error, and a signature
slot index beyond `signatures.len()` panics on the vector indexing.  `none`
models a panic.  The ed25519 signing primitive itself is total for a keypair;
it is carried abstractly as the keypair's `sign_message` function. -/

/-- Key material: a public identity plus the (total, deterministic) ed25519
signing function over message bytes. -/
structure Keypair where
  pubkey : Pubkey
  sign_message : List Nat → SolSignature

/-- `Transaction::get_signing_keypair_positions` for a single pubkey: errors
(outer `none`) when the account list is shorter than the number of required
signatures; otherwise the position of the pubkey among the signed keys, if
any. -/
def getSigningKeypairPosition (tx : Transaction) (pk : Pubkey) : Option (Option Nat) :=
  if tx.message.account_keys.length < tx.message.header.num_required_signatures then none
  else some ((tx.message.account_keys.take tx.message.header.num_required_signatures).findIdx?
    (fun x => x == pk))

/-- `Transaction::partial_sign` with an explicit recent_blockhash argument,
as `try_partial_sign` + `try_partial_sign_unchecked` behave; `none` models the
panic of the non-`try` wrapper used by the source. -/
def partialSignWith (tx : Transaction) (kp : Keypair) (recent_blockhash : SolHash) :
    Option Transaction :=
  match getSigningKeypairPosition tx kp.pubkey with
  | none => none
  | some none => none
  | some (some pos) =>
    let tx1 := if recent_blockhash = tx.message.recent_blockhash then tx
      else { signatures := tx.signatures.map (fun _ => List.replicate 64 0),
             message := { tx.message with recent_blockhash := recent_blockhash } }
    let sig := kp.sign_message (serializeMessage tx1.message)
    if pos < tx1.signatures.length then
      some { tx1 with signatures := tx1.signatures.set pos sig }
    else none

/-- The signing step exactly as the source invokes it: the blockhash passed is
the transaction's own embedded recent blockhash. -/
def partialSign (tx : Transaction) (kp : Keypair) : Option Transaction :=
  partialSignWith tx kp tx.message.recent_blockhash

/-! ## SDK data model (src/types.rs) -/

/-- An `f64` carried opaquely by its bit pattern; the embedded code only moves
amounts around, never computes with them. -/
structure F64 where
  bits : Nat
deriving DecidableEq

inductive Network where
  | Mainnet
  | Devnet
deriving DecidableEq

/-- `Network::as_str`. -/
def Network.as_str : Network → String
  | .Mainnet => "solana"
  | .Devnet => "solana-devnet"

structure QweryConfig where
  facilitator_url : String
  network : Network
  api_key : Option String
deriving DecidableEq

/-- `QweryConfig::default()`. -/
def QweryConfig.defaultConfig : QweryConfig :=
  { facilitator_url := "https://facilitator.qwery.xyz", network := .Mainnet, api_key := none }

/-- Metadata is a `HashMap<String, String>`; modelled as its entry list. -/
structure PaymentRequest where
  amount : F64
  token : String
  recipient : String
  metadata : Option (List (String × String))
deriving DecidableEq

structure PaymentResponse where
  payment_id : String
  transaction : String
  amount : F64
  token : String
  recipient : String
  network : String
  status : String
  expires_at : Option String
deriving DecidableEq

structure SettleRequest where
  payment_id : String
  signed_transaction : String
deriving DecidableEq

structure SettleResponse where
  success : Bool
  signature : Option String
  status : String
  error : Option String
deriving DecidableEq

structure VerifyRequest where
  signature : String
  network : String
deriving DecidableEq

structure VerifyResponse where
  verified : Bool
  status : String
  confirmations : Option Nat
deriving DecidableEq

structure HealthResponse where
  status : String
  version : String
  networks : List (String × String)
deriving DecidableEq

/-- `QweryError` (src/error.rs); each variant's payload reduced to its display
text. -/
inductive QweryError where
  | RequestError (msg : String)
  | JsonError (msg : String)
  | ApiError (body : String)
  | ConfigError (msg : String)
  | SigningError (msg : String)
  | Base64Error (msg : String)
  | SolanaError (msg : String)
deriving DecidableEq

/-- `Result<T> = std::result::Result<T, QweryError>` (src/error.rs). -/
inductive Result (α : Type) where
  | ok (value : α)
  | err (error : QweryError)
deriving DecidableEq

/-! ## JSON values and the serde serializers the client uses -/

inductive Json where
  | null
  | jbool (b : Bool)
  | num (x : F64)
  | str (s : String)
  | arr (xs : List Json)
  | obj (fields : List (String × Json))

/-- Top-level keys of a JSON object (in serialization order). -/
def jsonTopKeys : Json → List String
  | .obj fields => fields.map (fun f => f.1)
  | _ => []

/-- serde_json's serialization of `Option<HashMap<String, String>>` inside the
`json!` macro: `None` becomes JSON `null`, `Some(map)` an object of strings. -/
def jsonOfMetadataOpt : Option (List (String × String)) → Json
  | none => Json.null
  | some m => Json.obj (m.map (fun p => (p.1, Json.str p.2)))

/-- The literal request body `create_payment` builds with `serde_json::json!`
(client.rs lines 88-94): five keys in macro order, with `metadata` passed
through serde_json's Option serialization (so `None` is an explicit null). -/
def createPaymentBody (config : QweryConfig) (request : PaymentRequest) : Json :=
  Json.obj [("amount", Json.num request.amount), ("token", Json.str request.token),
    ("recipient", Json.str request.recipient), ("network", Json.str config.network.as_str),
    ("metadata", jsonOfMetadataOpt request.metadata)]

/-- `PaymentRequest`'s own derived `Serialize` (types.rs): `metadata` carries
`#[serde(skip_serializing_if = "Option::is_none")]`, so the key is omitted
when the field is `None`.  `create_payment` does NOT use this serializer. -/
def serializePaymentRequest (request : PaymentRequest) : Json :=
  Json.obj ([("amount", Json.num request.amount), ("token", Json.str request.token),
    ("recipient", Json.str request.recipient)] ++
    (match request.metadata with
     | none => []
     | some m => [("metadata", jsonOfMetadataOpt (some m))]))

/-- `SettleRequest`'s derived `Serialize`. -/
def serializeSettleRequest (request : SettleRequest) : Json :=
  Json.obj [("payment_id", Json.str request.payment_id),
    ("signed_transaction", Json.str request.signed_transaction)]

/-- `VerifyRequest`'s derived `Serialize`. -/
def serializeVerifyRequest (request : VerifyRequest) : Json :=
  Json.obj [("signature", Json.str request.signature),
    ("network", Json.str request.network)]

/-! ## HTTP model

Each operation builds one HTTP request (method, URL, headers, JSON body) and
consumes one HTTP response.  The remote peer is an oracle function from the
request to the response it returns; the response carries the status code, the
result of reading the body as text (`None` when reading fails), and the result
of parsing the body as the operation's response type (`None` when `json()`
fails).  `reqwest`'s `.json(..)` sets the JSON body and a content-type header;
`Response::status().is_success()` is `200..=299`. -/

structure HttpRequest where
  method : String
  url : String
  headers : List (String × String)
  body : Option Json

/-- One received HTTP response, as far as the client can observe it. -/
structure HttpResponse (α : Type) where
  status : Nat
  body_text : Option String
  body_json : Option α
deriving DecidableEq

/-- `StatusCode::is_success`. -/
def statusIsSuccess (s : Nat) : Bool := decide (200 ≤ s) && decide (s ≤ 299)

/-- The `Authorization` header the source attaches when an api key is
configured (`if let Some(ref api_key) = self.config.api_key { ... }`). -/
def bearerHeaders (api_key : Option String) : List (String × String) :=
  match api_key with
  | some k => [("Authorization", "Bearer " ++ k)]
  | none => []

/-- Values of all `Authorization` headers of a request. -/
def authHeaderValues (req : HttpRequest) : List String :=
  (req.headers.filter (fun h => h.1 == "Authorization")).map (fun h => h.2)

/-- The shared tail of every operation: non-2xx surfaces
`ApiError(text().unwrap_or_default())`; on 2xx the body is parsed as the
response type, a parse failure surfacing as the reqwest error (`?` on
`response.json()`). -/
def handleResponse {α : Type} (resp : HttpResponse α) : Result α :=
  if statusIsSuccess resp.status then
    match resp.body_json with
    | some v => .ok v
    | none => .err (.RequestError "error decoding response body")
  else
    .err (.ApiError (resp.body_text.getD ""))

/-! ## The client and its operations (src/client.rs) -/

/-- The client holds its immutable configuration (the reqwest `Client` carries
no observable state for the modelled operations). -/
structure QweryClient where
  config : QweryConfig
deriving DecidableEq

/-- `QweryClient::with_config`: builds the HTTP client (whose builder can fail
for environment reasons, surfaced as `RequestError`) and otherwise accepts the
configuration as given — no validation is performed on it. -/
def with_config (config : QweryConfig) (builder_ok : Bool) : Result QweryClient :=
  if builder_ok then .ok { config := config }
  else .err (.RequestError "client build failed")

/-- `QweryClient::new`: default config with the chosen network. -/
def QweryClient.new (network : Network) (builder_ok : Bool) : Result QweryClient :=
  with_config { QweryConfig.defaultConfig with network := network } builder_ok

/-- The HTTP request `create_payment` sends (client.rs lines 86-98). -/
def createPaymentHttpRequest (config : QweryConfig) (request : PaymentRequest) :
    HttpRequest :=
  { method := "POST", url := config.facilitator_url ++ "/payments/create",
    headers := ("Content-Type", "application/json") :: bearerHeaders config.api_key,
    body := some (createPaymentBody config request) }

/-- The HTTP request `settle_payment` sends (client.rs lines 164-171). -/
def settlePaymentHttpRequest (config : QweryConfig) (request : SettleRequest) :
    HttpRequest :=
  { method := "POST", url := config.facilitator_url ++ "/payments/settle",
    headers := ("Content-Type", "application/json") :: bearerHeaders config.api_key,
    body := some (serializeSettleRequest request) }

/-- The HTTP request `verify_payment` sends (client.rs lines 185-195): note
that no `Authorization` header is ever attached on this path. -/
def verifyPaymentHttpRequest (config : QweryConfig) (signature : String) :
    HttpRequest :=
  { method := "POST", url := config.facilitator_url ++ "/payments/verify",
    headers := [("Content-Type", "application/json")],
    body := some (serializeVerifyRequest
      { signature := signature, network := config.network.as_str }) }

/-- The HTTP request `health` sends (client.rs lines 207-210). -/
def healthHttpRequest (config : QweryConfig) : HttpRequest :=
  { method := "GET", url := config.facilitator_url ++ "/health",
    headers := [], body := none }

/-- `QweryClient::create_payment`, with the remote peer as an oracle. -/
def create_payment (client : QweryClient) (request : PaymentRequest)
    (net : HttpRequest → HttpResponse PaymentResponse) : Result PaymentResponse :=
  handleResponse (net (createPaymentHttpRequest client.config request))

/-- `QweryClient::settle_payment`. -/
def settle_payment (client : QweryClient) (request : SettleRequest)
    (net : HttpRequest → HttpResponse SettleResponse) : Result SettleResponse :=
  handleResponse (net (settlePaymentHttpRequest client.config request))

/-- `QweryClient::verify_payment`. -/
def verify_payment (client : QweryClient) (signature : String)
    (net : HttpRequest → HttpResponse VerifyResponse) : Result VerifyResponse :=
  handleResponse (net (verifyPaymentHttpRequest client.config signature))

/-- `QweryClient::health`. -/
def health (client : QweryClient) (net : HttpRequest → HttpResponse HealthResponse) :
    Result HealthResponse :=
  handleResponse (net (healthHttpRequest client.config))

/-! ## sign_and_settle (client.rs lines 136-161) -/

/-- Outcome of the purely local prefix of `sign_and_settle` (decode, sign,
re-encode): an early-returned error, a panic inside `partial_sign`, or the
`SettleRequest` that is then handed to `settle_payment`. -/
inductive SignOutcome where
  | err (e : QweryError)
  | panicked
  | req (r : SettleRequest)
deriving DecidableEq

/-- The local decode → sign → encode prefix of `sign_and_settle`, statement by
statement: base64-decode the envelope's transaction blob (failure:
`Base64Error`), bincode-deserialize it (failure: `SolanaError`), partial_sign
with the embedded blockhash (failure: panic), bincode-serialize and
base64-encode the result, and build the `SettleRequest` with the envelope's
payment id. -/
def signAndSettlePrepare (payment : PaymentResponse) (keypair : Keypair) : SignOutcome :=
  match b64Decode payment.transaction with
  | none => .err (.Base64Error "invalid base64")
  | some tx_bytes =>
    match bincodeDeserializeTransaction tx_bytes with
    | none => .err (.SolanaError "bincode deserialize failed")
    | some transaction =>
      match partialSign transaction keypair with
      | none => .panicked
      | some signed =>
        .req { payment_id := payment.payment_id,
               signed_transaction := b64Encode (bincodeSerializeTransaction signed) }

/-- `QweryClient::sign_and_settle`: the local prefix followed by
`settle_payment`.  The outer `Option` is `none` exactly when `partial_sign`
panics (no value is ever returned to the caller in that case). -/
def sign_and_settle (client : QweryClient) (payment : PaymentResponse)
    (keypair : Keypair) (net : HttpRequest → HttpResponse SettleResponse) :
    Option (Result SettleResponse) :=
  match signAndSettlePrepare payment keypair with
  | .panicked => none
  | .err e => some (.err e)
  | .req r => some (settle_payment client r net)

/-- Every error the local prefix can return is a decode-stage error. -/
theorem signAndSettlePrepare_err_shape (payment : PaymentResponse) (keypair : Keypair)
    (e : QweryError) (h : signAndSettlePrepare payment keypair = .err e) :
    (∃ s, e = .Base64Error s) ∨ (∃ s, e = .SolanaError s) := by
  unfold signAndSettlePrepare at h
  rcases hb : b64Decode payment.transaction with _ | bs
  · simp only [hb, SignOutcome.err.injEq] at h
    exact Or.inl ⟨"invalid base64", h.symm⟩
  · simp only [hb] at h
    rcases hd : bincodeDeserializeTransaction bs with _ | tx
    · simp only [hd, SignOutcome.err.injEq] at h
      exact Or.inr ⟨"bincode deserialize failed", h.symm⟩
    · simp only [hd] at h
      rcases hs : partialSign tx keypair with _ | signed <;> simp only [hs] at h <;>
        exact absurd h (by simp)

/-! ## Statement-level state machine for the local prefix of sign_and_settle

For the frame claims about the envelope, the body of `sign_and_settle` is also
embedded one source statement at a time over an explicit state that carries the
borrowed envelope alongside the locals, so that "the envelope is never written"
is a statement about every intermediate state, not only about the final
value. -/

inductive SSState where
  | atStart (payment : PaymentResponse)
  | decoded (payment : PaymentResponse) (tx_bytes : List Nat)
  | deserialized (payment : PaymentResponse) (transaction : Transaction)
  | signedTx (payment : PaymentResponse) (transaction : Transaction)
  | encoded (payment : PaymentResponse) (signed_base64 : String)
  | failed (payment : PaymentResponse) (e : QweryError)
  | panicked (payment : PaymentResponse)
  | requested (payment : PaymentResponse) (r : SettleRequest)

/-- The envelope component of a state. -/
def ssEnvelope : SSState → PaymentResponse
  | .atStart p => p
  | .decoded p _ => p
  | .deserialized p _ => p
  | .signedTx p _ => p
  | .encoded p _ => p
  | .failed p _ => p
  | .panicked p => p
  | .requested p _ => p

/-- One source statement of the local prefix of `sign_and_settle` (client.rs
lines 142-159); terminal states are fixed points. -/
def ssStep (keypair : Keypair) : SSState → SSState
  | .atStart p =>
    match b64Decode p.transaction with
    | none => .failed p (.Base64Error "invalid base64")
    | some bs => .decoded p bs
  | .decoded p bs =>
    match bincodeDeserializeTransaction bs with
    | none => .failed p (.SolanaError "bincode deserialize failed")
    | some tx => .deserialized p tx
  | .deserialized p tx =>
    match partialSign tx keypair with
    | none => .panicked p
    | some tx1 => .signedTx p tx1
  | .signedTx p tx => .encoded p (b64Encode (bincodeSerializeTransaction tx))
  | .encoded p s64 =>
    .requested p { payment_id := p.payment_id, signed_transaction := s64 }
  | .failed p e => .failed p e
  | .panicked p => .panicked p
  | .requested p r => .requested p r

/-- Run `n` statements. -/
def ssRun (keypair : Keypair) : Nat → SSState → SSState
  | 0, s => s
  | Nat.succ n, s => ssRun keypair n (ssStep keypair s)

/-- The `SignOutcome` a terminal state denotes, if terminal. -/
def ssOutcome : SSState → Option SignOutcome
  | .failed _ e => some (.err e)
  | .panicked _ => some .panicked
  | .requested _ r => some (.req r)
  | _ => none

theorem ssEnvelope_ssStep (keypair : Keypair) (s : SSState) :
    ssEnvelope (ssStep keypair s) = ssEnvelope s := by
  cases s with
  | atStart p =>
    cases hb : b64Decode p.transaction <;> simp [ssStep, hb, ssEnvelope]
  | decoded p bs =>
    cases hd : bincodeDeserializeTransaction bs <;> simp [ssStep, hd, ssEnvelope]
  | deserialized p tx =>
    cases hs : partialSign tx keypair <;> simp [ssStep, hs, ssEnvelope]
  | signedTx p tx => rfl
  | encoded p s64 => rfl
  | failed p e => rfl
  | panicked p => rfl
  | requested p r => rfl

theorem ssEnvelope_ssRun (keypair : Keypair) (n : Nat) (s : SSState) :
    ssEnvelope (ssRun keypair n s) = ssEnvelope s := by
  induction n generalizing s with
  | zero => rfl
  | succ n ih => rw [ssRun, ih, ssEnvelope_ssStep]

/-- Five statements always reach a terminal state whose outcome is exactly
`signAndSettlePrepare`'s. -/
theorem ssRun_five (payment : PaymentResponse) (keypair : Keypair) :
    ssOutcome (ssRun keypair 5 (.atStart payment))
      = some (signAndSettlePrepare payment keypair) := by
  cases hb : b64Decode payment.transaction with
  | none => simp [ssRun, ssStep, hb, ssOutcome, signAndSettlePrepare]
  | some bs =>
    cases hd : bincodeDeserializeTransaction bs with
    | none => simp [ssRun, ssStep, hb, hd, ssOutcome, signAndSettlePrepare]
    | some tx =>
      cases hs : partialSign tx keypair with
      | none => simp [ssRun, ssStep, hb, hd, hs, ssOutcome, signAndSettlePrepare]
      | some tx1 => simp [ssRun, ssStep, hb, hd, hs, ssOutcome, signAndSettlePrepare]

/-! ## Concrete sample inputs used by counterexamples and witnesses -/

/-- A 32-byte pubkey occupying the sample transaction's only signer slot. -/
def pkA : Pubkey := List.replicate 32 1

/-- A pubkey not present in the sample transaction. -/
def pkB : Pubkey := List.replicate 32 9

/-- A well-formed single-signer transaction with an empty signature slot. -/
def txSample : Transaction :=
  { signatures := [List.replicate 64 0],
    message := { header := ⟨1, 0, 0⟩, account_keys := [pkA],
                 recent_blockhash := List.replicate 32 2, instructions := [] } }

/-- A keypair matching the sample transaction's signer slot. -/
def kpA : Keypair := { pubkey := pkA, sign_message := fun _ => List.replicate 64 7 }

/-- A keypair whose identity matches no signer slot of `txSample`. -/
def kpB : Keypair := { pubkey := pkB, sign_message := fun _ => List.replicate 64 7 }

/-- `txSample` after `kpA` signs it: slot 0 filled with the computed
signature. -/
def txSampleSigned : Transaction :=
  { txSample with signatures := [List.replicate 64 7] }

/-- An envelope carrying the encoded `txSample`. -/
def paymentSample : PaymentResponse :=
  { payment_id := "p1", transaction := envelopeEncode txSample, amount := ⟨0⟩,
    token := "SOL", recipient := "R", network := "solana", status := "pending",
    expires_at := none }

/-- An envelope whose transaction blob is not valid base64 transport encoding. -/
def paymentBadBlob : PaymentResponse :=
  { paymentSample with transaction := "!!" }

/-- A configuration with an api key set. -/
def cfgAuth : QweryConfig :=
  { facilitator_url := "https://facilitator.qwery.xyz", network := .Mainnet,
    api_key := some "k" }

def clientSample : QweryClient := { config := cfgAuth }

def paymentRequestSample : PaymentRequest :=
  { amount := ⟨0⟩, token := "SOL", recipient := "R", metadata := none }

def settleRequestSample : SettleRequest :=
  { payment_id := "p1", signed_transaction := "tx" }

/-- A settle endpoint that accepts everything. -/
def netSettleOK : HttpRequest → HttpResponse SettleResponse :=
  fun _ => ⟨200, some "", some ⟨true, some "abc", "settled", none⟩⟩

/-- A settle endpoint that rejects everything with an unreadable body. -/
def netSettleFail : HttpRequest → HttpResponse SettleResponse :=
  fun _ => ⟨500, none, none⟩

/-! ## Claim theorems -/

/-- C1 counterexample: with `api_key = Some "k"` configured, `verify_payment`
sends its request without any `Authorization` header (its builder at client.rs
lines 185-195 never adds one), while `create_payment` on the same
configuration does attach `Bearer k` — refuting the claim that all three
payments operations attach the bearer header. -/
theorem verify_payment_auth_counterexample :
    cfgAuth.api_key = some "k" ∧
    authHeaderValues (verifyPaymentHttpRequest cfgAuth "abc") = [] ∧
    (verifyPaymentHttpRequest cfgAuth "abc").headers = [("Content-Type", "application/json")] ∧
    authHeaderValues (createPaymentHttpRequest cfgAuth paymentRequestSample) = ["Bearer k"] :=
  ⟨rfl, rfl, rfl, rfl⟩

/-- C1 amended: `create_payment` and `settle_payment` attach exactly one
`Authorization: Bearer <api_key>` header when an api key is configured and
none otherwise; `verify_payment` and `health` never attach an Authorization
header, whatever the configuration. -/
theorem auth_header_per_operation (config : QweryConfig) (request : PaymentRequest)
    (sreq : SettleRequest) (signature : String) :
    authHeaderValues (createPaymentHttpRequest config request)
      = (config.api_key.map (fun k => "Bearer " ++ k)).toList ∧
    authHeaderValues (settlePaymentHttpRequest config sreq)
      = (config.api_key.map (fun k => "Bearer " ++ k)).toList ∧
    authHeaderValues (verifyPaymentHttpRequest config signature) = [] ∧
    authHeaderValues (healthHttpRequest config) = [] := by
  rcases config with ⟨url, nw, key⟩
  cases key <;> exact ⟨rfl, rfl, rfl, rfl⟩

set_option maxRecDepth 100000 in
/-- C2 counterexample: a transport text that decodes successfully (to the
well-formed `txSample`) but is not reproduced by `encode ∘ decode`: bincode's
`deserialize` accepts and ignores a trailing byte, so the text with one junk
byte appended decodes to `txSample`, whose re-encoding is the text without the
junk byte. -/
theorem envelope_codec_round_trip_counterexample :
    envelopeDecode (b64Encode (bincodeSerializeTransaction txSample ++ [0])) = some txSample ∧
    envelopeEncode txSample ≠ b64Encode (bincodeSerializeTransaction txSample ++ [0]) := by
  constructor
  · have hwf : transactionWF txSample := by decide
    have hlt : ∀ b ∈ bincodeSerializeTransaction txSample ++ [0], b < 256 := by
      intro b hb
      rcases List.mem_append.mp hb with hb | hb
      · exact bincodeSerializeTransaction_bytes_lt txSample hwf b hb
      · simp at hb; omega
    unfold envelopeDecode
    rw [b64Decode_b64Encode _ hlt]
    exact bincodeDeserialize_serialize_trailing txSample hwf [0]
  · decide

/-- C2 amended: the codec satisfies `decode (encode e) = e` for every
well-formed transaction, and consequently `encode (decode text) = text` for
every text that is exactly the canonical encoding of a well-formed
transaction; the unrestricted `encode (decode text) = text` direction fails
because the bincode deserializer tolerates trailing bytes. -/
theorem envelope_codec_round_trip_amended (tx : Transaction) (hwf : transactionWF tx) :
    envelopeDecode (envelopeEncode tx) = some tx ∧
    (envelopeDecode (envelopeEncode tx)).map envelopeEncode = some (envelopeEncode tx) := by
  have h := envelopeDecode_encode tx hwf
  exact ⟨h, by rw [h, Option.map_some']⟩

/-- C2 amended, witness at `txSample`. -/
theorem envelope_codec_round_trip_amended_witness :
    transactionWF txSample ∧ envelopeDecode (envelopeEncode txSample) = some txSample :=
  ⟨by decide, (envelope_codec_round_trip_amended txSample (by decide)).1⟩

set_option maxRecDepth 100000 in
/-- C3: on the concrete envelope `paymentSample` (whose only signer slot holds
`pkA`) and the keypair `kpB` (public identity `pkB`, matching no signer slot),
the signing step of `sign_and_settle` panics inside
`Transaction::partial_sign` ("keypair-pubkey mismatch") instead of returning
any value; moreover no execution of the local prefix can ever return
`SigningError` — the code never constructs that variant. -/
theorem signing_mismatch_panics_not_signing_error :
    signAndSettlePrepare paymentSample kpB = SignOutcome.panicked ∧
    ∀ (payment : PaymentResponse) (keypair : Keypair) (m : String),
      signAndSettlePrepare payment keypair ≠ SignOutcome.err (QweryError.SigningError m) := by
  constructor
  · decide
  · intro p k m hEq
    rcases signAndSettlePrepare_err_shape p k _ hEq with ⟨s, hs⟩ | ⟨s, hs⟩ <;> simp at hs

/-- Decode-stage errors of `sign_and_settle`: the base64 error from
`BASE64.decode` and the (solana-wrapped) bincode error from
`bincode::deserialize`. -/
def isDecodeStageError : QweryError → Bool
  | .Base64Error _ => true
  | .SolanaError _ => true
  | _ => false

/-- C4: when the envelope's transaction blob fails to decode (invalid base64,
or bytes that do not deserialize as a transaction), `sign_and_settle` returns
the decode-stage error, and its result does not depend on the network oracle
at all — no request reaches the settle endpoint. -/
theorem decode_failure_no_network_call (client : QweryClient) (payment : PaymentResponse)
    (keypair : Keypair) (net net2 : HttpRequest → HttpResponse SettleResponse)
    (h : b64Decode payment.transaction = none ∨
      ∃ bs, b64Decode payment.transaction = some bs ∧
        bincodeDeserializeTransaction bs = none) :
    (∃ e, isDecodeStageError e = true ∧
      sign_and_settle client payment keypair net = some (.err e)) ∧
    sign_and_settle client payment keypair net
      = sign_and_settle client payment keypair net2 := by
  rcases h with hb | ⟨bs, hb, hd⟩
  · refine ⟨⟨.Base64Error "invalid base64", rfl, ?_⟩, ?_⟩ <;>
      simp [sign_and_settle, signAndSettlePrepare, hb]
  · refine ⟨⟨.SolanaError "bincode deserialize failed", rfl, ?_⟩, ?_⟩ <;>
      simp [sign_and_settle, signAndSettlePrepare, hb, hd]

/-- C4 witness: an envelope whose blob `"!!"` is not valid base64; the result
is the same under an all-accepting and an all-rejecting settle endpoint. -/
theorem decode_failure_no_network_call_witness :
    b64Decode paymentBadBlob.transaction = none ∧
    ((∃ e, isDecodeStageError e = true ∧
      sign_and_settle clientSample paymentBadBlob kpA netSettleOK = some (.err e)) ∧
    sign_and_settle clientSample paymentBadBlob kpA netSettleOK
      = sign_and_settle clientSample paymentBadBlob kpA netSettleFail) :=
  ⟨by decide, decode_failure_no_network_call clientSample paymentBadBlob kpA
    netSettleOK netSettleFail (Or.inl (by decide))⟩

/-- C5: when the signing step of `sign_and_settle` completes, it changes only
the signature slot at the position of the keypair's public identity among the
signed keys: the message is identical before and after (hence its serialized
bytes, accounts, instructions and recent blockhash are unchanged), the
signature list keeps its length, every other slot keeps its value and
position, and the matched slot receives the signature over the unchanged
message bytes. -/
theorem partial_sign_frame (tx : Transaction) (keypair : Keypair) (tx1 : Transaction)
    (h : partialSign tx keypair = some tx1) :
    tx1.message = tx.message ∧
    tx1.signatures.length = tx.signatures.length ∧
    ∃ pos, (tx.message.account_keys.take tx.message.header.num_required_signatures).findIdx?
        (fun x => x == keypair.pubkey) = some pos ∧
      tx1.signatures[pos]? = some (keypair.sign_message (serializeMessage tx.message)) ∧
      ∀ i, i ≠ pos → tx1.signatures[i]? = tx.signatures[i]? := by
  unfold partialSign partialSignWith getSigningKeypairPosition at h
  by_cases hlen : tx.message.account_keys.length < tx.message.header.num_required_signatures
  · simp [hlen] at h
  · simp only [hlen, if_false] at h
    rcases hidx : (tx.message.account_keys.take
        tx.message.header.num_required_signatures).findIdx? (fun x => x == keypair.pubkey)
      with _ | pos
    · simp [hidx] at h
    · simp only [hidx, if_pos rfl] at h
      by_cases hpos : pos < tx.signatures.length
      · simp only [hpos, if_true, Option.some.injEq] at h
        subst h
        refine ⟨rfl, List.length_set .., pos, rfl, ?_, ?_⟩
        · exact List.getElem?_set_self hpos
        · intro i hi
          exact List.getElem?_set_ne (fun hc => hi hc.symm)
      · simp [hpos] at h

/-- C5 witness: `kpA` signing `txSample` fills slot 0 with the computed
signature and leaves the message untouched. -/
theorem partial_sign_frame_witness :
    partialSign txSample kpA = some txSampleSigned ∧
    txSampleSigned.message = txSample.message :=
  ⟨by decide, (partial_sign_frame txSample kpA txSampleSigned (by decide)).1⟩

/-- C6: the envelope passed to `sign_and_settle` is never mutated — after any
number of statements of the local pipeline the state's envelope component is
the original value (each statement writes only the locals), and the pipeline
reaches, in five statements, exactly the outcome `signAndSettlePrepare`
describes. -/
theorem sign_and_settle_envelope_unmodified (payment : PaymentResponse) (keypair : Keypair) :
    (∀ n, ssEnvelope (ssRun keypair n (.atStart payment)) = payment) ∧
    ssOutcome (ssRun keypair 5 (.atStart payment))
      = some (signAndSettlePrepare payment keypair) :=
  ⟨fun n => ssEnvelope_ssRun keypair n (.atStart payment), ssRun_five payment keypair⟩

/-- C7: whenever the local decode/sign/encode steps succeed, `sign_and_settle`
returns exactly `settle_payment` applied to the `SettleRequest` whose
`payment_id` is the envelope's unchanged payment id and whose
`signed_transaction` is the re-encoded signed transaction — the composite is
decode, then sign, then encode, then the lower-level settle primitive. -/
theorem sign_and_settle_refines_settle_payment (client : QweryClient)
    (payment : PaymentResponse) (keypair : Keypair)
    (net : HttpRequest → HttpResponse SettleResponse)
    (bs : List Nat) (tx signed : Transaction)
    (h1 : b64Decode payment.transaction = some bs)
    (h2 : bincodeDeserializeTransaction bs = some tx)
    (h3 : partialSign tx keypair = some signed) :
    sign_and_settle client payment keypair net
      = some (settle_payment client
          { payment_id := payment.payment_id,
            signed_transaction := b64Encode (bincodeSerializeTransaction signed) } net) := by
  unfold sign_and_settle signAndSettlePrepare
  simp only [h1, h2, h3]

set_option maxRecDepth 1000000 in
/-- C7 witness: the full pipeline on `paymentSample` with the matching keypair
equals the settle primitive on the re-encoded signed transaction. -/
theorem sign_and_settle_refines_settle_payment_witness :
    sign_and_settle clientSample paymentSample kpA netSettleOK
      = some (settle_payment clientSample
          { payment_id := "p1", signed_transaction := envelopeEncode txSampleSigned }
          netSettleOK) :=
  sign_and_settle_refines_settle_payment clientSample paymentSample kpA netSettleOK
    (bincodeSerializeTransaction txSample) txSample txSampleSigned
    (by decide) (by decide) (by decide)

/-- C8: every network-calling operation, on a non-2xx response, returns
`ApiError` whose diagnostic is exactly the response body text, the empty
string when the body cannot be read — never a failure of any other kind. -/
theorem non_success_surfaces_api_error_body (client : QweryClient)
    (request : PaymentRequest) (sreq : SettleRequest) (signature : String)
    (netP : HttpRequest → HttpResponse PaymentResponse)
    (netS : HttpRequest → HttpResponse SettleResponse)
    (netV : HttpRequest → HttpResponse VerifyResponse)
    (netH : HttpRequest → HttpResponse HealthResponse)
    (hP : statusIsSuccess (netP (createPaymentHttpRequest client.config request)).status
      = false)
    (hS : statusIsSuccess (netS (settlePaymentHttpRequest client.config sreq)).status
      = false)
    (hV : statusIsSuccess (netV (verifyPaymentHttpRequest client.config signature)).status
      = false)
    (hH : statusIsSuccess (netH (healthHttpRequest client.config)).status = false) :
    create_payment client request netP = .err (.ApiError
      ((netP (createPaymentHttpRequest client.config request)).body_text.getD "")) ∧
    settle_payment client sreq netS = .err (.ApiError
      ((netS (settlePaymentHttpRequest client.config sreq)).body_text.getD "")) ∧
    verify_payment client signature netV = .err (.ApiError
      ((netV (verifyPaymentHttpRequest client.config signature)).body_text.getD "")) ∧
    health client netH = .err (.ApiError
      ((netH (healthHttpRequest client.config)).body_text.getD "")) := by
  refine ⟨?_, ?_, ?_, ?_⟩ <;>
    simp [create_payment, settle_payment, verify_payment, health, handleResponse,
      hP, hS, hV, hH]

/-- C8 witness: concrete non-2xx responses; unreadable bodies surface as
`ApiError ""`, a readable body verbatim. -/
theorem non_success_surfaces_api_error_body_witness :
    create_payment clientSample paymentRequestSample (fun _ => ⟨500, none, none⟩)
      = .err (.ApiError "") ∧
    settle_payment clientSample settleRequestSample netSettleFail = .err (.ApiError "") ∧
    verify_payment clientSample "abc" (fun _ => ⟨404, some "not found", none⟩)
      = .err (.ApiError "not found") ∧
    health clientSample (fun _ => ⟨503, none, none⟩) = .err (.ApiError "") :=
  non_success_surfaces_api_error_body clientSample paymentRequestSample settleRequestSample
    "abc" (fun _ => ⟨500, none, none⟩) netSettleFail (fun _ => ⟨404, some "not found", none⟩)
    (fun _ => ⟨503, none, none⟩) (by decide) (by decide) (by decide) (by decide)

/-- C9 counterexample: `with_config` accepts a plainly invalid configuration
(empty facilitator URL) without any `ConfigError` — construction performs no
validation at all (client.rs lines 51-61 only build the HTTP client). -/
theorem with_config_accepts_any_config_counterexample :
    with_config { facilitator_url := "", network := .Mainnet, api_key := none } true
      = .ok { config := { facilitator_url := "", network := .Mainnet, api_key := none } } :=
  rfl

/-- Results that are not a `ConfigError`. -/
def notConfigError {α : Type} (r : Result α) : Prop :=
  ∀ m, r ≠ .err (.ConfigError m)

/-- Lift of `notConfigError` over a possibly-panicking call. -/
def notConfigErrorOpt {α : Type} : Option (Result α) → Prop
  | none => True
  | some r => notConfigError r

theorem handleResponse_notConfigError {α : Type} (resp : HttpResponse α) :
    notConfigError (handleResponse resp) := by
  intro m
  unfold handleResponse
  by_cases hs : statusIsSuccess resp.status
  · simp only [hs, if_true]
    cases resp.body_json <;> simp
  · simp [hs]

/-- C9 amended: `with_config` never returns `ConfigError` for any
configuration (its only failure is the HTTP-client builder's `RequestError`),
and no operation — `create_payment`, `settle_payment`, `verify_payment`,
`health`, or `sign_and_settle` — ever surfaces `ConfigError` either: the
variant is never constructed, so in particular invalid configurations are not
rejected at construction time. -/
theorem config_error_never_surfaces (config : QweryConfig) (b : Bool)
    (client : QweryClient) (request : PaymentRequest) (sreq : SettleRequest)
    (signature : String) (payment : PaymentResponse) (keypair : Keypair)
    (netP : HttpRequest → HttpResponse PaymentResponse)
    (netS : HttpRequest → HttpResponse SettleResponse)
    (netV : HttpRequest → HttpResponse VerifyResponse)
    (netH : HttpRequest → HttpResponse HealthResponse) :
    notConfigError (with_config config b) ∧
    notConfigError (create_payment client request netP) ∧
    notConfigError (settle_payment client sreq netS) ∧
    notConfigError (verify_payment client signature netV) ∧
    notConfigError (health client netH) ∧
    notConfigErrorOpt (sign_and_settle client payment keypair netS) := by
  refine ⟨?_, handleResponse_notConfigError _, handleResponse_notConfigError _,
    handleResponse_notConfigError _, handleResponse_notConfigError _, ?_⟩
  · intro m
    cases b <;> simp [with_config]
  · cases hp : signAndSettlePrepare payment keypair with
    | panicked => simp [sign_and_settle, hp, notConfigErrorOpt]
    | err e =>
      simp only [sign_and_settle, hp, notConfigErrorOpt]
      intro m hEq
      rcases signAndSettlePrepare_err_shape payment keypair e hp with ⟨s, rfl⟩ | ⟨s, rfl⟩ <;>
        simp at hEq
    | req r =>
      simp only [sign_and_settle, hp, notConfigErrorOpt]
      exact handleResponse_notConfigError _

/-- C10: with `metadata == None`, the body `create_payment` sends still has the
key `"metadata"` with an explicit JSON null (the `json!` literal passes the
`Option` through serde_json, which renders `None` as null), its top-level keys
are always exactly `amount, token, recipient, network, metadata` — whereas
`PaymentRequest`'s own derived serializer omits the `metadata` key entirely
when it is `None`. -/
theorem create_payment_body_metadata_explicit_null (config : QweryConfig)
    (request : PaymentRequest) (h : request.metadata = none) :
    createPaymentBody config request
      = Json.obj [("amount", Json.num request.amount), ("token", Json.str request.token),
          ("recipient", Json.str request.recipient),
          ("network", Json.str config.network.as_str), ("metadata", Json.null)] ∧
    jsonTopKeys (createPaymentBody config request)
      = ["amount", "token", "recipient", "network", "metadata"] ∧
    jsonTopKeys (serializePaymentRequest request) = ["amount", "token", "recipient"] ∧
    ∀ request2 : PaymentRequest, jsonTopKeys (createPaymentBody config request2)
      = ["amount", "token", "recipient", "network", "metadata"] := by
  refine ⟨?_, rfl, ?_, fun request2 => rfl⟩
  · simp [createPaymentBody, jsonOfMetadataOpt, h]
  · simp [serializePaymentRequest, h, jsonTopKeys]

/-- C10 witness: the concrete metadata-free request. -/
theorem create_payment_body_metadata_explicit_null_witness :
    paymentRequestSample.metadata = none ∧
    createPaymentBody cfgAuth paymentRequestSample
      = Json.obj [("amount", Json.num ⟨0⟩), ("token", Json.str "SOL"),
          ("recipient", Json.str "R"), ("network", Json.str "solana"),
          ("metadata", Json.null)] :=
  ⟨rfl, (create_payment_body_metadata_explicit_null cfgAuth paymentRequestSample rfl).1⟩

end Qwery
